import Mathlib

/-!
Verification development for the YouTube downloader repository
(`app.py` + `youtube.py`): a shallow embedding of the job-orchestration
and queue engine (queue enqueue with dedup and priority, the scheduled-task
tick, the background download task's status trace, the size estimator,
the completion-detection polling loop, the history-store insert and the
status lookup), together with theorems settling the specification claims.

Modelling conventions:
- Python dicts that hold job/queue records become Lean structures; fields
  never read by the modelled logic (e.g. `video_info`, `added_date`,
  `tags`, `estimated_size_mb`) are omitted.
- Wall-clock datetimes become `Nat` timestamps; `now >= scheduled_time`
  becomes `scheduledTime <= now`.
- External effects (yt-dlp info extraction, the download subprocess, the
  filesystem, `input()` answers, the history table) are oracles passed in
  an environment structure; the embedded functions are pure and
  executable.
- Python float arithmetic `int(duration * kbps * 1024 * 1024 / 8)` with
  `kbps` a multiple of 0.1 is modelled exactly over `Nat` by keeping the
  bitrate in tenths of the Python value and dividing by `10 * 8`.
-/

/-- Truthiness-faithful character-list prefix test (`str.startswith`). -/
def isPre : List Char → List Char → Bool
  | [], _ => true
  | _ :: _, [] => false
  | a :: as, b :: bs => a = b && isPre as bs

/-- Substring containment, as used to model `y in domain` in Python. -/
def hasSub (needle : List Char) : List Char → Bool
  | [] => isPre needle []
  | c :: t => isPre needle (c :: t) || hasSub needle t

/-- String-level substring containment (`needle in hay` in Python). -/
def strContains (hay needle : String) : Bool :=
  hasSub needle.toList hay.toList

/-- Character-list implementation of `str.lower()`. -/
def strToLower (s : String) : String := ⟨s.data.map Char.toLower⟩

/-- Character-list implementation of `str.strip()`. -/
def strTrim (s : String) : String :=
  ⟨((s.data.dropWhile Char.isWhitespace).reverse.dropWhile Char.isWhitespace).reverse⟩

/-- Everything before the first `.` of a filename:
Python `name.split('.')[0]`. -/
def stemOf (s : String) : String := ⟨s.data.takeWhile (fun c => c ≠ '.')⟩

/-- Result of Python `urlparse` + `parse_qs(query).get('v',[None])[0]`,
the only projections of a URL that `get_video_id` (youtube.py:116-132)
reads: the network location, the path, and the `v` query parameter. -/
structure ParsedUrl where
  netloc : String
  path : String
  queryV : Option String
deriving DecidableEq

/-- A URL as the code sees it: the raw request string (compared with `==`
by the queue dedup check) together with its parse. -/
structure UrlV where
  raw : String
  parsed : ParsedUrl
deriving DecidableEq

/-- The `youtube_domains` list of `get_video_id` (youtube.py:118). -/
def youtube_domains : List String :=
  ["youtube.com", "www.youtube.com", "m.youtube.com", "youtu.be"]

/-- `YouTubeDownloader.get_video_id` (youtube.py:116-132): on a URL whose
lower-cased netloc contains one of the YouTube domains, return the path
without its leading slash for `youtu.be` links (Python `path[1:] if path
else None`: the empty path gives `None`), otherwise the `v` query
parameter. Non-YouTube netlocs give `None`. -/
def get_video_id (u : ParsedUrl) : Option String :=
  let domain := strToLower u.netloc
  if youtube_domains.any (fun y => strContains domain y) then
    if strContains domain "youtu.be" then
      if u.path = "" then none else some ⟨u.path.data.drop 1⟩
    else u.queryV
  else none

/-- `YouTubeDownloader.is_youtube_url` (youtube.py:155-162). Each regex
there wraps `youtube\.com|youtu\.be` (or one of them) in purely optional
prefixes and is applied with `re.search` and `re.IGNORECASE`, so the
test reduces to case-insensitive substring search for `youtube.com` or
`youtu.be`. -/
def is_youtube_url (text : String) : Bool :=
  strContains (strToLower text) "youtube.com" ||
    strContains (strToLower text) "youtu.be"

/-- The fields of a yt-dlp info dict read by the modelled code paths. -/
structure VideoInfo where
  title : String
  duration : Nat
  author : String
deriving DecidableEq

/-- Bitrate table of the FIRST `calculate_file_size` definition
(youtube.py:171-180), in tenths of the Python kbps value
(`'144p': 0.1` becomes `1`, ..., `'highest': 8.0` becomes `80`);
the `.get(quality, 2.0)` fallback is `20`. -/
def bitrate_map_v1 (quality : String) : Nat :=
  if quality = "144p" then 1
  else if quality = "240p" then 2
  else if quality = "360p" then 5
  else if quality = "480p" then 10
  else if quality = "720p" then 20
  else if quality = "1080p" then 40
  else if quality = "1440p" then 60
  else if quality = "2160p" then 120
  else if quality = "best" then 50
  else if quality = "highest" then 80
  else 20

/-- First (shadowed) `calculate_file_size` (youtube.py:171-180):
`int(duration * kbps * 1024 * 1024 / 8)` with the v1 bitrate table,
bitrates kept in tenths so the division is by `10 * 8`. -/
def calculate_file_size_v1 (info : VideoInfo) (quality : String) : Nat :=
  info.duration * bitrate_map_v1 quality * 1024 * 1024 / (10 * 8)

/-- Bitrate table of the SECOND `calculate_file_size` definition
(youtube.py:219-232) — the one bound at runtime — in tenths of the
Python kbps value; note its keys carry no `p` suffix and stop at
`'1080'`, with the same `2.0` (here `20`) fallback. -/
def bitrate_map (quality : String) : Nat :=
  if quality = "144" then 1
  else if quality = "240" then 2
  else if quality = "360" then 5
  else if quality = "480" then 10
  else if quality = "720" then 20
  else if quality = "1080" then 40
  else if quality = "best" then 50
  else 20

/-- Second `calculate_file_size` (youtube.py:219-232), the definition the
class actually uses at runtime (it shadows the first). -/
def calculate_file_size (info : VideoInfo) (quality : String) : Nat :=
  info.duration * bitrate_map quality * 1024 * 1024 / (10 * 8)

/-- Statuses a `QueueEntry` dict's `status` field takes in the source. -/
inductive QStatus
  | pending | scheduled | processing | completed | failed
deriving DecidableEq

/-- A queue item as built by `add_to_queue` (app.py:464-480) and
`schedule_download` (app.py:1205-1217); presentation-only fields
(`video_info`, `added_date`, `tags`, `custom_name`, `estimated_size_mb`)
are omitted because no modelled logic reads them. -/
structure QueueItem where
  url : UrlV
  format_type : String
  quality : String
  priority : String
  status : QStatus
  scheduledTime : Option Nat
  processedAt : Option Nat
deriving DecidableEq

/-- Outcome of the `/queue/add` handler, restricted to its decision. -/
inductive AddResult
  | invalidUrl
  | infoError (msg : String)
  | alreadyInQueue
  | alreadyDownloaded
  | added
deriving DecidableEq

/-- Oracles used by `add_to_queue`: `get_video_info` (may return an error
dict) keyed by the raw URL, and `is_already_downloaded` keyed by the
extracted video id. -/
structure QueueEnv where
  getInfo : String → Except String VideoInfo
  isDownloaded : String → Bool

/-- The fresh pending item `add_to_queue` builds (app.py:464-480). -/
def mkQueueItem (url : UrlV) (fmt qual prio : String) : QueueItem :=
  ⟨url, fmt, qual, prio, .pending, none, none⟩

/-- `/queue/add` handler `add_to_queue` (app.py:421-496), from the URL
validity check onward. In source order: reject non-YouTube URLs; fetch
video info (error dict rejects); reject if some queue item has the SAME
RAW URL string and status `pending` (`item['url'] == url`); warn-and-stop
if the extracted video id is truthy and already downloaded; otherwise
build the item and `insert(0, ...)` on `priority == 'high'`, else append.
Returns the decision and the updated queue. -/
def add_to_queue (env : QueueEnv) (q : List QueueItem) (url : UrlV)
    (fmt qual prio : String) : AddResult × List QueueItem :=
  if ¬ is_youtube_url url.raw then (.invalidUrl, q)
  else
    match env.getInfo url.raw with
    | .error e => (.infoError e, q)
    | .ok _ =>
      if q.any (fun it => it.url.raw = url.raw && it.status = QStatus.pending) then
        (.alreadyInQueue, q)
      else
        let dl :=
          match get_video_id url.parsed with
          | some vid => vid ≠ "" && env.isDownloaded vid
          | none => false
        if dl then (.alreadyDownloaded, q)
        else
          let item := mkQueueItem url fmt qual prio
          if prio = "high" then (.added, item :: q) else (.added, q ++ [item])

/-- Oracle for the scheduler tick: the success of
`download_single_video(url, ...)` per raw URL. -/
structure SchedEnv where
  fetchOk : String → Bool

/-- Due test of the scheduler tick (app.py:1246-1248): status is
`scheduled` and `now >= scheduled_time`. A `scheduled` item always
carries a `scheduled_time` (both creation sites set it); a missing one
is modelled as not due. -/
def schedDue (now : Nat) (it : QueueItem) : Bool :=
  it.status = QStatus.scheduled &&
    (match it.scheduledTime with
     | some t => t ≤ now
     | none => false)

/-- Per-item body of `/schedule/process` (app.py:1246-1260): a due item
has `download_single_video` invoked on it and its status set to
`completed` on success, `failed` otherwise, with `processed_date` set;
any other item is untouched. -/
def sched_step (env : SchedEnv) (now : Nat) (it : QueueItem) : QueueItem :=
  if schedDue now it then
    { it with
      status := if env.fetchOk it.url.raw then .completed else .failed,
      processedAt := some now }
  else it

/-- `/schedule/process` handler `process_scheduled` (app.py:1240-1275):
one tick walks the queue, runs `sched_step` on every item, and (second
component) invokes the download on exactly the due items' URLs. -/
def process_scheduled (env : SchedEnv) (now : Nat) (q : List QueueItem) :
    List QueueItem × List String :=
  (q.map (sched_step env now), (q.filter (schedDue now)).map (fun it => it.url.raw))

/-- Per-item body of `YouTubeDownloader.run_scheduled_tasks`
(youtube.py:841-855), the CLI twin of `process_scheduled`: same due test,
same direct download invocation and `completed`/`failed` transition, but
it does not set `processed_date`. -/
def run_sched_step (env : SchedEnv) (now : Nat) (it : QueueItem) : QueueItem :=
  if schedDue now it then
    { it with status := if env.fetchOk it.url.raw then .completed else .failed }
  else it

/-- `YouTubeDownloader.run_scheduled_tasks` (youtube.py:841-855). -/
def run_scheduled_tasks (env : SchedEnv) (now : Nat) (q : List QueueItem) :
    List QueueItem × List String :=
  (q.map (run_sched_step env now), (q.filter (schedDue now)).map (fun it => it.url.raw))

/-- Values the `status` field of a `download_status[task_id]` dict takes
in the modelled handlers of app.py. -/
inductive DStatus
  | starting | extracting_info | downloading | processing
  | completed | failed | not_found | extracting
deriving DecidableEq

/-- A `download_status[task_id]` record, at the granularity the claims
read it: status, progress (absent in some failure dicts of the playlist
task, hence `Option`), and error. -/
structure JobStatus where
  status : DStatus
  progress : Option Nat
  error : Option String
deriving DecidableEq

/-- `/download-status/<task_id>` handler `get_download_status`
(app.py:264-268): `download_status.get(task_id, {"status": "not_found",
"error": "Task not found"})` — an absent id yields the sentinel dict,
never an exception. The registry dict is modelled as an association
list. -/
def get_download_status (reg : List (String × JobStatus)) (taskId : String) :
    JobStatus :=
  match reg.find? (fun p => p.1 = taskId) with
  | some p => p.2
  | none => ⟨.not_found, none, some "Task not found"⟩

/-- One progress-hook invocation inside `download_task` (app.py:205-221):
a `downloading` event carries `downloaded_bytes` plus the possibly-absent
(or zero, which Python treats as falsy) `total_bytes` and
`total_bytes_estimate`; a `finished` event carries nothing. -/
inductive HookEvent
  | downloading (downloadedBytes : Nat)
      (totalBytes totalBytesEstimate : Option Nat)
  | finished
deriving DecidableEq

/-- The divisor the hook actually uses: `total_bytes` if present and
truthy, else `total_bytes_estimate` if present and truthy, else none
(in which case the hook writes nothing). -/
def effTotal (tb tbe : Option Nat) : Option Nat :=
  if tb.getD 0 ≠ 0 then tb else if tbe.getD 0 ≠ 0 then tbe else none

/-- States written by one hook event (app.py:205-221), starting from the
current record `s`. A truthy-total `downloading` event writes
`progress = min(int(downloaded/total * 80) + 10, 90)`; a `finished`
event writes `progress = 95` and then `status = "processing"` as two
successive field writes (two observable states). -/
def hookStates (s : JobStatus) (e : HookEvent) : List JobStatus :=
  match e with
  | .downloading db tb tbe =>
    match effTotal tb tbe with
    | some t => [{ s with progress := some (min (db * 80 / t + 10) 90) }]
    | none => []
  | .finished =>
    [{ s with progress := some 95 },
     { s with progress := some 95, status := .processing }]

/-- Sequence of records produced by running the hook over a list of
events, threading the latest record. -/
def runHooks (s : JobStatus) : List HookEvent → List JobStatus
  | [] => []
  | e :: es =>
    let out := hookStates s e
    out ++ runHooks (out.getLastD s) es

/-- The progress values the hook writes, in order. -/
def hookWrites : List HookEvent → List Nat
  | [] => []
  | .downloading db tb tbe :: es =>
    (match effTotal tb tbe with
     | some t => [min (db * 80 / t + 10) 90]
     | none => []) ++ hookWrites es
  | .finished :: es => 95 :: 95 :: hookWrites es

/-- Outcome of the `download_single_video` call inside `download_task`:
boolean result, or an exception caught by the task's `except` clause. -/
inductive FetchOutcome
  | success
  | failure
  | exn (msg : String)
deriving DecidableEq

/-- Oracle inputs of one `download_task` execution. -/
structure TaskEnv where
  info : Except String VideoInfo
  hooks : List HookEvent
  outcome : FetchOutcome

/-- Successive values of `download_status[task_id]` over one execution of
`download_task` (app.py:172-251), one state per Python statement that
writes the dict or one of the modelled fields: the initial
`{"starting", 0}` dict; `status = "extracting_info"`; `progress = 5`; on
an info error the replacement `{"failed", 0, error}`; otherwise
`status = "downloading"`, `progress = 10`, the hook-written states, and
finally `{"completed", 100}` or `{"failed", 0, "Download failed - check
logs for details"}` or, on an exception, `{"failed", 0, str(e)}`. -/
def download_task_trace (env : TaskEnv) : List JobStatus :=
  let s0 : JobStatus := ⟨.starting, some 0, none⟩
  let s1 : JobStatus := ⟨.extracting_info, some 0, none⟩
  let s2 : JobStatus := ⟨.extracting_info, some 5, none⟩
  match env.info with
  | .error e => [s0, s1, s2, ⟨.failed, some 0, some e⟩]
  | .ok _ =>
    let s3 : JobStatus := ⟨.downloading, some 5, none⟩
    let s4 : JobStatus := ⟨.downloading, some 10, none⟩
    let hs := runHooks s4 env.hooks
    let final : JobStatus :=
      match env.outcome with
      | .success => ⟨.completed, some 100, none⟩
      | .failure => ⟨.failed, some 0, some "Download failed - check logs for details"⟩
      | .exn m => ⟨.failed, some 0, some m⟩
    [s0, s1, s2, s3, s4] ++ hs ++ [final]

/-- One flat-extracted playlist entry: its id (Python-falsy when `None`
or empty) and title. -/
structure PlaylistVideo where
  id : Option String
  title : String
deriving DecidableEq

/-- Outcome of the flat `extract_info` call of `playlist_download_task`
(app.py:1092-1100): entries, or a missing/entry-less result, or an
exception caught by the task's outer `except` clause. -/
inductive ExtractOutcome
  | ok (entries : List PlaylistVideo)
  | noEntries
  | exn (msg : String)

/-- Oracle inputs of one `playlist_download_task` execution; per-video
download outcomes only move counters, not the modelled fields. -/
structure PlaylistEnv where
  extract : ExtractOutcome
  maxVideos : Nat

/-- Successive values of `download_status[task_id]` over one execution of
`playlist_download_task` (app.py:1085-1168): `{"extracting", 5}`; on a
missing-entries result `{"failed", error}` (no progress key); with the
truthy-id entries truncated to `max_videos`, `{"failed", error}` when
empty, else `{"downloading", 10}`, one per-video update with
`progress = int(10 + (i/total) * 85)`, and the final `{"completed",
100}`. An exception produces `{"failed", str(e)}`. -/
def playlist_download_task_trace (env : PlaylistEnv) : List JobStatus :=
  let s1 : JobStatus := ⟨.extracting, some 5, none⟩
  match env.extract with
  | .exn m => [s1, ⟨.failed, none, some m⟩]
  | .noEntries => [s1, ⟨.failed, none, some "Could not extract playlist"⟩]
  | .ok entries =>
    let videos := (entries.filter (fun v => v.id.getD "" ≠ "")).take env.maxVideos
    let n := videos.length
    if n = 0 then [s1, ⟨.failed, none, some "No videos found in playlist"⟩]
    else
      let per := (List.range n).map
        (fun i => (⟨.downloading, some (10 + i * 85 / n), none⟩ : JobStatus))
      [s1, ⟨.downloading, some 10, none⟩] ++ per ++ [⟨.completed, some 100, none⟩]

/-- A row of the `downloads` table; `video_id` is declared `TEXT UNIQUE`
(init_database, youtube.py:54-86) and SQLite enforces uniqueness only on
non-NULL values. Other columns are summarized by `file_path`. -/
structure DbRow where
  video_id : Option String
  file_path : String
deriving DecidableEq

/-- `YouTubeDownloader.save_to_database` (youtube.py:255-279):
`INSERT OR IGNORE INTO downloads (video_id, ...)` against the UNIQUE
`video_id` column — a row whose non-NULL key is already present is
silently skipped; a NULL key always inserts (SQLite UNIQUE admits any
number of NULLs). The call never reports an error for a duplicate. -/
def save_to_database (db : List DbRow) (row : DbRow) : List DbRow :=
  match row.video_id with
  | some k => if db.any (fun r => r.video_id = some k) then db else db ++ [row]
  | none => db ++ [row]

/-- Filesystem state observed by one poll of the completion-detection
loop (youtube.py:397-416): whether the expected final path exists with
non-zero size, the destination-directory listing, and whether an
attempted `os.rename` of the first candidate would succeed (an `OSError`
is swallowed and the poll retried). -/
structure FsPoll where
  finalExists : Bool
  dirListing : List String
  renameOk : Bool

/-- The `temp_files` candidate list of one poll (youtube.py:407): files
in the destination directory whose name starts with the expected
basename's stem (`basename.split('.')[0]`) and differs from the expected
basename. -/
def tempFiles (base : String) (listing : List String) : List String :=
  let stem := stemOf base
  listing.filter (fun f => isPre stem.data f.data && f ≠ base)

/-- Oracle inputs of one `download_single_video` execution
(youtube.py:294-450): the history lookup, the two interactive answers,
the info extraction, FFmpeg availability, the yt-dlp return code, the
expected output basename, and the per-poll filesystem observations. -/
structure DLEnv where
  history : String → Bool
  answerOverwrite : String
  info : Option VideoInfo
  answerProceed : String
  ffmpegAvailable : Bool
  fetchCode : Nat
  expectedBase : String
  fsObs : Nat → FsPoll

/-- An `input()` answer accepted by the code's
`.strip().lower() in ['y', 'yes']` checks. -/
def yesAnswer (s : String) : Bool :=
  strToLower (strTrim s) = "y" || strToLower (strTrim s) = "yes"

/-- Whether poll `i` of the detection loop succeeds: the expected path
exists non-empty, or a stem-matching candidate exists and its rename
succeeds (a failing rename is `pass`ed over and the loop sleeps). -/
def pollMatch (env : DLEnv) (i : Nat) : Bool :=
  let o := env.fsObs i
  o.finalExists || (!(tempFiles env.expectedBase o.dirListing).isEmpty && o.renameOk)

/-- The detection loop (youtube.py:399-420): `timeout = 30`,
`time.sleep(1)` between polls, so the `while time.time() - start_time <
timeout` loop performs one poll per elapsed second, i.e. exactly
`timeout` polls when nothing matches. Modelled with the remaining poll
budget as fuel; returns the index of the first successful poll. -/
def detectFrom (env : DLEnv) : Nat → Nat → Option Nat
  | _, 0 => none
  | i, fuel + 1 => if pollMatch env i then some i else detectFrom env (i + 1) fuel

/-- Result of `download_single_video`, instrumented with whether the
yt-dlp download was actually invoked. -/
structure DLResult where
  success : Bool
  fetched : Bool
deriving DecidableEq

/-- The already-downloaded gate of `download_single_video`
(youtube.py:296-303): a truthy video id that the history reports as
downloaded stops the call unless the overwrite prompt is answered
y/yes. -/
def dsv_blocked (env : DLEnv) (url : UrlV) : Bool :=
  match get_video_id url.parsed with
  | some v => v ≠ "" && env.history v && !(yesAnswer env.answerOverwrite)
  | none => false

/-- The fetch invocation and completion wait of `download_single_video`
(youtube.py:381-423): a non-zero yt-dlp return code fails; otherwise the
expected file is awaited by the 30-poll detection loop — no match fails
the job, a match completes it (post-processing failures further down are
non-fatal and elided). In either case the fetch was invoked. -/
def dsv_fetch_and_wait (env : DLEnv) : DLResult :=
  if env.fetchCode ≠ 0 then ⟨false, true⟩
  else
    match detectFrom env 0 30 with
    | none => ⟨false, true⟩
    | some _ => ⟨true, true⟩

/-- `YouTubeDownloader.download_single_video` (youtube.py:294-450) at the
claims' granularity. In source order: the already-downloaded gate; info
extraction failure stops; if `calculate_file_size`'s estimate exceeds
`max_file_size_mb * 1024 * 1024` (default 1000), prompt and stop unless
the answer is y/yes; mp3 without FFmpeg stops; then the fetch is invoked
and its output awaited. -/
def download_single_video (maxFileSizeMb : Nat) (env : DLEnv) (url : UrlV)
    (format_type quality : String) : DLResult :=
  if dsv_blocked env url then ⟨false, false⟩
  else
    match env.info with
    | none => ⟨false, false⟩
    | some info =>
      let estimated_size := calculate_file_size info quality
      let max_size := maxFileSizeMb * 1024 * 1024
      if estimated_size > max_size && !(yesAnswer env.answerProceed) then
        ⟨false, false⟩
      else if format_type = "mp3" && !env.ffmpegAvailable then ⟨false, false⟩
      else dsv_fetch_and_wait env

/-- The per-step progress relation of the amended monotonicity claim:
progress does not decrease except on a step whose successor is the
`failed` record (which resets progress to 0). -/
def progMono (a b : JobStatus) : Prop :=
  a.progress.getD 0 ≤ b.progress.getD 0 ∨ b.status = DStatus.failed

/-! Concrete fixtures used by counterexamples and witnesses. -/

/-- The URL `https://youtu.be/vid1` with its `urlparse` projections. -/
def urlA : UrlV := ⟨"https://youtu.be/vid1", ⟨"youtu.be", "/vid1", none⟩⟩

/-- The URL `https://www.youtube.com/watch?v=vid1`: a different raw string
than `urlA` but the same extracted video id. -/
def urlB : UrlV :=
  ⟨"https://www.youtube.com/watch?v=vid1", ⟨"www.youtube.com", "/watch", some "vid1"⟩⟩

/-- The URL `https://youtu.be/vid2`, a second distinct item. -/
def urlC : UrlV := ⟨"https://youtu.be/vid2", ⟨"youtu.be", "/vid2", none⟩⟩

/-- A plain 100-second video info record. -/
def infoT : VideoInfo := ⟨"title", 100, "author"⟩

/-- Queue environment whose info oracle always succeeds with `infoT` and
whose history reports nothing downloaded. -/
def envQ : QueueEnv := ⟨fun _ => .ok infoT, fun _ => false⟩

/-- A queue entry already pending for `urlA`. -/
def itemA : QueueItem := mkQueueItem urlA "mp4" "best" "normal"

/-- A scheduled queue entry for `urlA`, due at time 5. -/
def itemS : QueueItem := ⟨urlA, "mp4", "best", "normal", .scheduled, some 5, none⟩

/-- Scheduler environment whose downloads always succeed. -/
def envS : SchedEnv := ⟨fun _ => true⟩

/-- Task environment whose info extraction fails. -/
def envC4 : TaskEnv := ⟨.error "boom", [], .failure⟩

/-- Task environment with a successful run and two hook events whose
written progress values (50, 95, 95) are non-decreasing. -/
def envT2 : TaskEnv :=
  ⟨.ok infoT, [.downloading 50 (some 100) none, .finished], .success⟩

/-- Playlist environment whose flat extraction yields no entries. -/
def envPW : PlaylistEnv := ⟨.noEntries, 50⟩

/-- Playlist environment with one valid entry. -/
def envPO : PlaylistEnv := ⟨.ok [⟨some "vid1", "t"⟩], 50⟩

/-- A 100000-second video: its `best`-quality estimate exceeds the
default 1000 MB cap. -/
def infoBig : VideoInfo := ⟨"big", 100000, "a"⟩

/-- Download environment over `infoBig` where every interactive prompt is
answered `y`, yt-dlp succeeds and the expected file appears at once. -/
def envD : DLEnv :=
  ⟨fun _ => false, "", some infoBig, "y", true, 0, "out.mp4",
   fun _ => ⟨true, [], true⟩⟩

/-- Like `envD` but the size prompt is answered `n`. -/
def envD2 : DLEnv :=
  ⟨fun _ => false, "", some infoBig, "n", true, 0, "out.mp4",
   fun _ => ⟨true, [], true⟩⟩

/-- Filesystem observations where polls 0-2 see only a stem-matching
alternate file whose rename fails, and poll 3 sees the rename succeed. -/
def fsW : Nat → FsPoll :=
  fun i =>
    if i = 3 then ⟨false, ["out.f616.mp4"], true⟩
    else ⟨false, ["out.f616.mp4"], false⟩

/-- Download environment over `infoT` (small estimate) with `fsW`
filesystem observations. -/
def envDet : DLEnv :=
  ⟨fun _ => false, "", some infoT, "", true, 0, "out.mp4", fsW⟩

/-- Download environment over `infoT` where the expected file never
appears and no alternate candidate ever exists. -/
def envDet2 : DLEnv :=
  ⟨fun _ => false, "", some infoT, "", true, 0, "out.mp4",
   fun _ => ⟨false, [], true⟩⟩

/-! Claim theorems. -/

/-- C9: for every taskId not present in the job registry, the status
lookup returns the well-defined `not_found` sentinel record rather than
raising an error. -/
theorem C9_unknown_task_sentinel (reg : List (String × JobStatus)) (taskId : String)
    (h : ∀ p ∈ reg, p.1 ≠ taskId) :
    get_download_status reg taskId =
      ⟨DStatus.not_found, none, some "Task not found"⟩ := by
  unfold get_download_status
  have hfind : reg.find? (fun p => p.1 = taskId) = none := by
    rw [List.find?_eq_none]
    intro p hp
    simpa using h p hp
  rw [hfind]

/-- Witness for C9 at a concrete registry missing the id `b`. -/
theorem C9_unknown_task_sentinel_witness :
    get_download_status [("a", ⟨DStatus.completed, some 100, none⟩)] "b" =
      ⟨DStatus.not_found, none, some "Task not found"⟩ :=
  C9_unknown_task_sentinel [("a", ⟨DStatus.completed, some 100, none⟩)] "b"
    (by decide)

/-- C8: the history-store insert is idempotent on a non-null itemKey:
the second insert of the same row is ignored (the store is returned
unchanged, no error), and starting from a store without the key, two
inserts leave exactly one record carrying it. -/
theorem C8_history_insert_idempotent (db : List DbRow) (row : DbRow) (k : String)
    (hk : row.video_id = some k) :
    save_to_database (save_to_database db row) row = save_to_database db row ∧
    ((∀ r ∈ db, r.video_id ≠ some k) →
      ((save_to_database (save_to_database db row) row).filter
          (fun r => r.video_id = some k)).length = 1) := by
  have hany : ∀ d : List DbRow, save_to_database d row =
      if d.any (fun r => r.video_id = some k) then d else d ++ [row] := by
    intro d
    simp only [save_to_database, hk]
  by_cases h1 : db.any (fun r => r.video_id = some k)
  · have e1 : save_to_database db row = db := by rw [hany, if_pos h1]
    refine ⟨?_, ?_⟩
    · rw [e1, e1]
    · intro habs
      exfalso
      rcases List.any_eq_true.mp h1 with ⟨r, hr, hrk⟩
      exact habs r hr (by simpa using hrk)
  · have e1 : save_to_database db row = db ++ [row] := by
      rw [hany, if_neg h1]
    have h2 : (db ++ [row]).any (fun r => r.video_id = some k) = true := by
      simp [List.any_append, hk]
    have e2 : save_to_database (db ++ [row]) row = db ++ [row] := by
      rw [hany, if_pos h2]
    refine ⟨by rw [e1, e2], ?_⟩
    intro hnone
    rw [e1, e2]
    have hdb : db.filter (fun r => r.video_id = some k) = [] := by
      rw [List.filter_eq_nil_iff]
      intro r hr
      simpa using hnone r hr
    simp [List.filter_append, hdb, hk]

/-- Witness for C8: inserting the `vid1` row twice into the empty store
leaves it unchanged after the second call and exactly one row keyed
`vid1`. -/
theorem C8_history_insert_idempotent_witness :
    save_to_database (save_to_database [] ⟨some "vid1", "p"⟩) ⟨some "vid1", "p"⟩ =
      save_to_database [] ⟨some "vid1", "p"⟩ ∧
    ((save_to_database (save_to_database [] ⟨some "vid1", "p"⟩) ⟨some "vid1", "p"⟩).filter
        (fun r => r.video_id = some "vid1")).length = 1 := by
  have h := C8_history_insert_idempotent [] ⟨some "vid1", "p"⟩ "vid1" rfl
  exact ⟨h.1, h.2 (by decide)⟩

/-- C10 counterexample: the two `calculate_file_size` definitions are NOT
extensionally equal — at `quality = "1080p"` and duration 10 the first
uses its keyed rate 4.0 while the runtime one falls through to the 2.0
fallback, giving different estimates. -/
theorem C10_counterexample :
    calculate_file_size_v1 ⟨"t", 10, "a"⟩ "1080p" ≠
      calculate_file_size ⟨"t", 10, "a"⟩ "1080p" := by decide

/-- C10 amended: the two definitions are extensionally DIFFERENT. The
`p`-suffixed labels and `highest` are keyed in the first table but
absent from the second, where they fall through to the fallback rate 2.0
(here 20 tenths); the definitions therefore agree at `720p` (whose keyed
first-table rate equals the fallback) but differ at `1080p` for every
positive duration. -/
theorem C10_amended (info : VideoInfo) (q : String)
    (hq : q ∈ ["144p", "240p", "360p", "480p", "720p", "1080p", "1440p",
               "2160p", "highest"]) :
    calculate_file_size info q = info.duration * 20 * 1024 * 1024 / (10 * 8) ∧
    calculate_file_size_v1 info "720p" = calculate_file_size info "720p" ∧
    (1 ≤ info.duration →
      calculate_file_size_v1 info "1080p" ≠ calculate_file_size info "1080p") := by
  refine ⟨?_, ?_, ?_⟩
  · have h20 : bitrate_map q = 20 := by
      fin_cases hq <;> rfl
    show info.duration * bitrate_map q * 1024 * 1024 / (10 * 8) = _
    rw [h20]
  · show info.duration * bitrate_map_v1 "720p" * 1024 * 1024 / (10 * 8) =
      info.duration * bitrate_map "720p" * 1024 * 1024 / (10 * 8)
    have ha : bitrate_map_v1 "720p" = 20 := rfl
    have hb : bitrate_map "720p" = 20 := rfl
    rw [ha, hb]
  · intro hd
    show info.duration * bitrate_map_v1 "1080p" * 1024 * 1024 / (10 * 8) ≠
      info.duration * bitrate_map "1080p" * 1024 * 1024 / (10 * 8)
    have h1 : bitrate_map_v1 "1080p" = 40 := rfl
    have h2 : bitrate_map "1080p" = 20 := rfl
    rw [h1, h2]
    omega

/-- Witness for C10 at duration 10 and quality `1080p`. -/
theorem C10_amended_witness :
    calculate_file_size ⟨"t", 10, "a"⟩ "1080p" =
      10 * 20 * 1024 * 1024 / (10 * 8) ∧
    calculate_file_size_v1 ⟨"t", 10, "a"⟩ "1080p" ≠
      calculate_file_size ⟨"t", 10, "a"⟩ "1080p" := by
  have h := C10_amended ⟨"t", 10, "a"⟩ "1080p" (by decide)
  exact ⟨h.1, h.2.2 (by decide)⟩

/-- C2 counterexample: two distinct raw URLs that resolve to the SAME
itemKey (`vid1`). After enqueuing the first (now pending), enqueuing the
second is NOT rejected: it is added and the queue grows to length 2 —
the dedup check compares raw URL strings, not resolved itemKeys. -/
theorem C2_counterexample :
    get_video_id urlA.parsed = get_video_id urlB.parsed ∧
    urlA.raw ≠ urlB.raw ∧
    add_to_queue envQ [] urlA "mp4" "best" "normal" = (.added, [itemA]) ∧
    itemA.status = QStatus.pending ∧
    (add_to_queue envQ [itemA] urlB "mp4" "best" "normal").1 = .added ∧
    (add_to_queue envQ [itemA] urlB "mp4" "best" "normal").2.length = 2 := by
  decide

/-- C2 amended: the enqueue dedup is keyed on the RAW URL string, not the
resolved itemKey: when the URL is valid, video info resolves, and some
queue entry carries the same raw URL with status `pending`, the call is
rejected (HTTP 409, "Video already in queue") and the queue is returned
unchanged — same length, same entries, same order. The same content
under a different URL string is not rejected. -/
theorem C2_amended (env : QueueEnv) (q : List QueueItem) (url : UrlV)
    (fmt qual prio : String) (info : VideoInfo)
    (hurl : is_youtube_url url.raw = true)
    (hinfo : env.getInfo url.raw = .ok info)
    (hdup : ∃ it ∈ q, it.url.raw = url.raw ∧ it.status = QStatus.pending) :
    add_to_queue env q url fmt qual prio = (.alreadyInQueue, q) := by
  have hany : q.any (fun it => it.url.raw = url.raw && it.status = QStatus.pending)
      = true := by
    rcases hdup with ⟨it, hit, h1, h2⟩
    exact List.any_eq_true.mpr ⟨it, hit, by simp [h1, h2]⟩
  unfold add_to_queue
  rw [hurl]
  simp [hinfo, hany]

/-- Witness for C2 amended: enqueuing `urlA` a second time while its
first entry is pending is rejected and leaves the queue unchanged. -/
theorem C2_amended_witness :
    add_to_queue envQ [itemA] urlA "mp4" "best" "normal" =
      (.alreadyInQueue, [itemA]) :=
  C2_amended envQ [itemA] urlA "mp4" "best" "normal" infoT (by decide) rfl
    ⟨itemA, by decide, by decide, by decide⟩

/-- C3: enqueuing with priority `high` places the new entry at the head
of the queue (ahead of every existing entry, pending ones included),
whenever the request passes the URL, info, raw-URL-dedup and
already-downloaded gates. -/
theorem C3_high_priority_front (env : QueueEnv) (q : List QueueItem) (url : UrlV)
    (fmt qual : String) (info : VideoInfo)
    (hurl : is_youtube_url url.raw = true)
    (hinfo : env.getInfo url.raw = .ok info)
    (hnodup : ∀ it ∈ q, ¬(it.url.raw = url.raw ∧ it.status = QStatus.pending))
    (hnodl : ∀ v, get_video_id url.parsed = some v → v ≠ "" →
      env.isDownloaded v = false) :
    add_to_queue env q url fmt qual "high" =
      (.added, mkQueueItem url fmt qual "high" :: q) := by
  have hany : q.any (fun it => it.url.raw = url.raw && it.status = QStatus.pending)
      = false := by
    rw [List.any_eq_false]
    intro it hit
    have := hnodup it hit
    simp only [Bool.and_eq_true, decide_eq_true_eq]
    tauto
  have hdl : (match get_video_id url.parsed with
      | some vid => vid ≠ "" && env.isDownloaded vid
      | none => false) = false := by
    cases hvid : get_video_id url.parsed with
    | none => rfl
    | some v =>
      by_cases hv : v = ""
      · simp [hv]
      · simp [hv, hnodl v hvid hv]
  unfold add_to_queue
  rw [hurl]
  simp only [Bool.not_true, if_false, hinfo, hany, hdl]
  simp

/-- Witness for C3: the spec scenario — `urlA` enqueued as `normal`
(already in the queue), then `urlC` as `high` — yields queue order
`[B, A]`. -/
theorem C3_high_priority_front_witness :
    add_to_queue envQ [itemA] urlC "mp4" "best" "high" =
      (.added, [mkQueueItem urlC "mp4" "best" "high", itemA]) :=
  C3_high_priority_front envQ [itemA] urlC "mp4" "best" infoT (by decide) rfl
    (by decide) (by decide)

/-- C1 counterexample: a queue holding one `scheduled` entry due at time
5, ticked at time 10 with a succeeding download oracle: the tick leaves
the entry `completed` — not `pending` — and the tick itself invoked the
download on the entry's URL. -/
theorem C1_counterexample :
    (process_scheduled envS 10 [itemS]).1.map (fun it => it.status) =
      [QStatus.completed] ∧
    (process_scheduled envS 10 [itemS]).2 = [urlA.raw] ∧
    (∀ it ∈ (process_scheduled envS 10 [itemS]).1, it.status ≠ QStatus.pending) := by
  decide

/-- C1 amended: one scheduler tick handles each due `scheduled` entry by
invoking the download on it DIRECTLY and transitioning it straight to
`completed` (fetch success) or `failed` (fetch failure), recording the
processing time; it never sets any entry to `pending`. The CLI twin
`run_scheduled_tasks` performs the same terminal transition. -/
theorem C1_amended (env : SchedEnv) (now : Nat) (q : List QueueItem)
    (i : Nat) (it : QueueItem)
    (hi : q[i]? = some it) (hdue : schedDue now it = true) :
    (process_scheduled env now q).1[i]? =
      some { it with
             status := if env.fetchOk it.url.raw then QStatus.completed
                       else QStatus.failed,
             processedAt := some now } ∧
    (if env.fetchOk it.url.raw then QStatus.completed else QStatus.failed) ≠
      QStatus.pending ∧
    it.url.raw ∈ (process_scheduled env now q).2 ∧
    (run_scheduled_tasks env now q).1[i]? =
      some { it with
             status := if env.fetchOk it.url.raw then QStatus.completed
                       else QStatus.failed } := by
  have hmem : it ∈ q := by
    rcases List.getElem?_eq_some_iff.mp hi with ⟨hlt, he⟩
    exact he ▸ List.getElem_mem hlt
  refine ⟨?_, ?_, ?_, ?_⟩
  · show (q.map (sched_step env now))[i]? = _
    rw [List.getElem?_map, hi]
    simp [sched_step, hdue]
  · split <;> simp
  · show it.url.raw ∈ (q.filter (schedDue now)).map (fun jt => jt.url.raw)
    exact List.mem_map_of_mem _ (List.mem_filter.mpr ⟨hmem, hdue⟩)
  · show (q.map (run_sched_step env now))[i]? = _
    rw [List.getElem?_map, hi]
    simp [run_sched_step, hdue]

/-- Witness for C1 amended at the concrete due entry `itemS`, time 10. -/
theorem C1_amended_witness :
    (process_scheduled envS 10 [itemS]).1[0]? =
      some { itemS with status := QStatus.completed, processedAt := some 10 } ∧
    urlA.raw ∈ (process_scheduled envS 10 [itemS]).2 := by
  have h := C1_amended envS 10 [itemS] 0 itemS rfl (by decide)
  refine ⟨?_, h.2.2.1⟩
  have h1 := h.1
  simpa [envS] using h1

/-- Helper: the detection loop returns `none` exactly when no poll in its
budget matches. -/
theorem detectFrom_none_iff (env : DLEnv) (fuel : Nat) : ∀ i : Nat,
    (detectFrom env i fuel = none ↔
      ∀ j, i ≤ j → j < i + fuel → pollMatch env j = false) := by
  induction fuel with
  | zero =>
    intro i
    simp only [detectFrom]
    constructor
    · intro _ j h1 h2
      omega
    · intro _
      trivial
  | succ n ih =>
    intro i
    simp only [detectFrom]
    by_cases h : pollMatch env i = true
    · rw [if_pos h]
      constructor
      · intro hc
        cases hc
      · intro hall
        have := hall i le_rfl (by omega)
        rw [h] at this
        cases this
    · rw [if_neg h]
      have hfalse : pollMatch env i = false := by
        simpa using h
      rw [ih (i + 1)]
      constructor
      · intro hall j h1 h2
        rcases Nat.eq_or_lt_of_le h1 with rfl | hlt
        · exact hfalse
        · exact hall j (by omega) (by omega)
      · intro hall j h1 h2
        exact hall j (by omega) (by omega)

/-- Helper: the detection loop returns `some k` exactly when poll `k` is
the first matching poll inside the budget. -/
theorem detectFrom_some_iff (env : DLEnv) (fuel : Nat) : ∀ i k : Nat,
    (detectFrom env i fuel = some k ↔
      (i ≤ k ∧ k < i + fuel ∧ pollMatch env k = true ∧
        ∀ j, i ≤ j → j < k → pollMatch env j = false)) := by
  induction fuel with
  | zero =>
    intro i k
    simp only [detectFrom]
    constructor
    · intro hc
      cases hc
    · intro ⟨h1, h2, _⟩
      omega
  | succ n ih =>
    intro i k
    simp only [detectFrom]
    by_cases h : pollMatch env i = true
    · rw [if_pos h]
      constructor
      · intro hc
        injection hc with hc
        subst hc
        exact ⟨le_rfl, by omega, h, fun j h1 h2 => by omega⟩
      · intro ⟨h1, h2, h3, h4⟩
        rcases Nat.eq_or_lt_of_le h1 with rfl | hlt
        · rfl
        · have := h4 i le_rfl hlt
          rw [h] at this
          cases this
    · rw [if_neg h]
      have hfalse : pollMatch env i = false := by
        simpa using h
      rw [ih (i + 1) k]
      constructor
      · intro ⟨h1, h2, h3, h4⟩
        refine ⟨by omega, by omega, h3, ?_⟩
        intro j hj1 hj2
        rcases Nat.eq_or_lt_of_le hj1 with rfl | hlt
        · exact hfalse
        · exact h4 j (by omega) hj2
      · intro ⟨h1, h2, h3, h4⟩
        have hk : i + 1 ≤ k := by
          rcases Nat.eq_or_lt_of_le h1 with rfl | hlt
          · rw [hfalse] at h3
            cases h3
          · omega
        exact ⟨hk, by omega, h3, fun j hj1 hj2 => h4 j (by omega) hj2⟩

/-- Helper: whenever the detection loop comes back empty, the job
reports failure. -/
theorem download_single_video_detect_none (maxMb : Nat) (env : DLEnv)
    (url : UrlV) (fmt qual : String)
    (hdet : detectFrom env 0 30 = none) :
    (download_single_video maxMb env url fmt qual).success = false := by
  have hafter : (dsv_fetch_and_wait env).success = false := by
    unfold dsv_fetch_and_wait
    split
    · rfl
    · rw [hdet]
  unfold download_single_video
  split
  · rfl
  · split
    · rfl
    · dsimp only
      split
      · rfl
      · split
        · rfl
        · exact hafter

/-- C7: after the fetch reports success, completion detection polls at a
fixed 1-second interval with a 30-second timeout: it fails exactly when
all 30 polls miss (never earlier, never later); a returned success index
is the first matching poll; a poll whose rename fails is not fatal — the
loop retries and succeeds on the next matching poll; and an empty
detection makes the job report failure. -/
theorem C7_completion_detection (maxMb : Nat) (env : DLEnv) (url : UrlV)
    (fmt qual : String) :
    (detectFrom env 0 30 = none ↔ ∀ j, j < 30 → pollMatch env j = false) ∧
    (∀ k, detectFrom env 0 30 = some k →
      k < 30 ∧ pollMatch env k = true ∧ ∀ j, j < k → pollMatch env j = false) ∧
    (∀ i, i + 1 < 30 → (∀ j, j ≤ i → pollMatch env j = false) →
      pollMatch env (i + 1) = true → detectFrom env 0 30 = some (i + 1)) ∧
    (detectFrom env 0 30 = none →
      (download_single_video maxMb env url fmt qual).success = false) := by
  refine ⟨?_, ?_, ?_, ?_⟩
  · rw [detectFrom_none_iff]
    constructor
    · intro hall j hj
      exact hall j (Nat.zero_le j) (by omega)
    · intro hall j _ hj
      exact hall j (by omega)
  · intro k hk
    rcases (detectFrom_some_iff env 30 0 k).mp hk with ⟨_, h2, h3, h4⟩
    exact ⟨by omega, h3, fun j hj => h4 j (Nat.zero_le j) hj⟩
  · intro i hi hall hnext
    exact (detectFrom_some_iff env 30 0 (i + 1)).mpr
      ⟨Nat.zero_le _, by omega, hnext, fun j _ hj => hall j (by omega)⟩
  · exact download_single_video_detect_none maxMb env url fmt qual

/-- Witness for C7: with `envDet` the alternate file's rename fails on
polls 0-2 and succeeds on poll 3, so detection succeeds at poll 3; with
`envDet2` no poll ever matches, detection is empty and the job reports
failure. -/
theorem C7_completion_detection_witness :
    detectFrom envDet 0 30 = some 3 ∧
    (download_single_video 1000 envDet2 urlA "mp4" "best").success = false := by
  have h1 := (C7_completion_detection 1000 envDet urlA "mp4" "best").2.2.1 2
    (by omega) (by decide) (by decide)
  have h2 := C7_completion_detection 1000 envDet2 urlA "mp4" "best"
  have hnone : detectFrom envDet2 0 30 = none := h2.1.mpr (by decide)
  exact ⟨h1, h2.2.2.2 hnone⟩

/-- C6 counterexample: for a video whose `best`-quality estimate exceeds
the configured cap, the job does NOT fail — the code prompts "Continue
anyway?" and, with the prompt answered `y`, the download proceeds and
the job completes. -/
theorem C6_counterexample :
    calculate_file_size infoBig "best" > 1000 * 1024 * 1024 ∧
    download_single_video 1000 envD urlA "mp4" "best" = ⟨true, true⟩ := by
  constructor
  · decide
  · decide

/-- C6 amended: the size check estimates the output as duration times
the per-quality bitrate of the runtime `calculate_file_size` table
(unknown quality falling back to 2.0 kbps-tenths 20); when the estimate
exceeds `max_file_size_mb * 1024 * 1024` the user is PROMPTED: the job
is refused without invoking the fetch iff the answer is not y/yes, and
with a y/yes answer the download proceeds at the requested quality. -/
theorem C6_amended (maxMb : Nat) (env : DLEnv) (url : UrlV)
    (fmt qual : String) (info : VideoInfo)
    (hinfo : env.info = some info)
    (hover : dsv_blocked env url = false)
    (hbig : calculate_file_size info qual > maxMb * 1024 * 1024) :
    calculate_file_size info qual =
      info.duration * bitrate_map qual * 1024 * 1024 / (10 * 8) ∧
    (yesAnswer env.answerProceed = false →
      download_single_video maxMb env url fmt qual = ⟨false, false⟩) ∧
    (yesAnswer env.answerProceed = true →
      (fmt = "mp3" → env.ffmpegAvailable = true) →
      (download_single_video maxMb env url fmt qual).fetched = true) := by
  refine ⟨rfl, ?_, ?_⟩
  · intro hno
    unfold download_single_video
    rw [hover]
    simp only [Bool.false_eq_true, if_false, hinfo]
    have hcond : (calculate_file_size info qual > maxMb * 1024 * 1024 &&
        !(yesAnswer env.answerProceed)) = true := by
      simp [hbig, hno]
    simp only [hcond, if_true]
  · intro hyes hmp3
    unfold download_single_video
    rw [hover]
    simp only [Bool.false_eq_true, if_false, hinfo]
    have hcond : (calculate_file_size info qual > maxMb * 1024 * 1024 &&
        !(yesAnswer env.answerProceed)) = false := by
      simp [hyes]
    simp only [hcond, Bool.false_eq_true, if_false]
    have hfetched : (dsv_fetch_and_wait env).fetched = true := by
      unfold dsv_fetch_and_wait
      split
      · rfl
      · split <;> rfl
    by_cases hf : fmt = "mp3"
    · simp [hf, hmp3 hf, hfetched]
    · simp [hf, hfetched]

/-- Witness for C6: with the prompt answered `n` the oversized job is
refused without a fetch; with it answered `y` the fetch is invoked. -/
theorem C6_amended_witness :
    download_single_video 1000 envD2 urlA "mp4" "best" = ⟨false, false⟩ ∧
    (download_single_video 1000 envD urlA "mp4" "best").fetched = true := by
  have hA := C6_amended 1000 envD2 urlA "mp4" "best" infoBig rfl (by decide)
    (by decide)
  have hB := C6_amended 1000 envD urlA "mp4" "best" infoBig rfl (by decide)
    (by decide)
  exact ⟨hA.2.1 (by decide), hB.2.2 (by decide) (by decide)⟩

/-- Helper: the record threaded to the next hook event keeps the current
error and only ever moves the status to `processing`. -/
theorem hookStates_getLastD (s : JobStatus) (e : HookEvent) :
    (((hookStates s e).getLastD s).status = s.status ∨
      ((hookStates s e).getLastD s).status = DStatus.processing) ∧
    ((hookStates s e).getLastD s).error = s.error := by
  cases e with
  | downloading db tb tbe =>
    cases h : effTotal tb tbe with
    | none => simp [hookStates, h]
    | some t => simp [hookStates, h]
  | finished => simp [hookStates]

/-- Helper: the progress values along the hook-written states are exactly
`hookWrites`. -/
theorem runHooks_progress (es : List HookEvent) : ∀ s : JobStatus,
    (runHooks s es).map (fun x => x.progress.getD 0) = hookWrites es := by
  induction es with
  | nil =>
    intro s
    rfl
  | cons e es ih =>
    intro s
    cases e with
    | downloading db tb tbe =>
      cases h : effTotal tb tbe with
      | none => simp [runHooks, hookStates, hookWrites, h, ih]
      | some t => simp [runHooks, hookStates, hookWrites, h, ih]
    | finished => simp [runHooks, hookStates, hookWrites, ih]

/-- Helper: every hook-written state carries a progress value between 10
and 95, a status equal to the starting one or `processing`, and the
starting error. -/
theorem runHooks_shape (es : List HookEvent) : ∀ (s : JobStatus), ∀ x ∈ runHooks s es,
    (∃ v, x.progress = some v ∧ 10 ≤ v ∧ v ≤ 95) ∧
    (x.status = s.status ∨ x.status = DStatus.processing) ∧
    x.error = s.error := by
  induction es with
  | nil =>
    intro s x hx
    simp [runHooks] at hx
  | cons e es ih =>
    intro s x hx
    rw [runHooks] at hx
    rcases List.mem_append.mp hx with hx1 | hx2
    · cases e with
      | downloading db tb tbe =>
        cases h : effTotal tb tbe with
        | none => simp [hookStates, h] at hx1
        | some t =>
          simp only [hookStates, h, List.mem_singleton] at hx1
          subst hx1
          refine ⟨⟨min (db * 80 / t + 10) 90, rfl,
            le_min (Nat.le_add_left 10 _) (by norm_num),
            le_trans (min_le_right _ _) (by norm_num)⟩, Or.inl rfl, rfl⟩
      | finished =>
        simp only [hookStates, List.mem_cons, List.not_mem_nil, or_false] at hx1
        rcases hx1 with rfl | rfl
        · exact ⟨⟨95, rfl, by omega, by omega⟩, Or.inl rfl, rfl⟩
        · exact ⟨⟨95, rfl, by omega, by omega⟩, Or.inr rfl, rfl⟩
    · rcases ih ((hookStates s e).getLastD s) x hx2 with ⟨hp, hst, herr⟩
      have hL := hookStates_getLastD s e
      refine ⟨hp, ?_, ?_⟩
      · rcases hst with h1 | h1
        · rw [h1]
          exact hL.1
        · exact Or.inr h1
      · rw [herr]
        exact hL.2

/-- Helper: the successful-extraction part of the `download_task` trace
is a `progMono` chain whenever the hook writes are non-decreasing and
the terminal record either carries progress 100 or is the `failed`
record. -/
theorem chainTraceAux (hooks : List HookEvent) (fin : JobStatus)
    (hmono : List.Chain' (fun a b : Nat => a ≤ b) (hookWrites hooks))
    (hfin : fin.progress.getD 0 = 100 ∨ fin.status = DStatus.failed) :
    List.Chain' progMono
      (([⟨.starting, some 0, none⟩, ⟨.extracting_info, some 0, none⟩,
        ⟨.extracting_info, some 5, none⟩, ⟨.downloading, some 5, none⟩,
        ⟨.downloading, some 10, none⟩] : List JobStatus) ++
        runHooks ⟨.downloading, some 10, none⟩ hooks ++ [fin]) := by
  rw [List.append_assoc, List.chain'_append]
  refine ⟨?_, ?_, ?_⟩
  · exact List.chain'_cons.mpr ⟨Or.inl (by decide),
      List.chain'_cons.mpr ⟨Or.inl (by decide),
        List.chain'_cons.mpr ⟨Or.inl (by decide),
          List.chain'_cons.mpr ⟨Or.inl (by decide), List.chain'_singleton _⟩⟩⟩⟩
  · rw [List.chain'_append]
    refine ⟨?_, List.chain'_singleton _, ?_⟩
    · have hmap := runHooks_progress hooks ⟨.downloading, some 10, none⟩
      have hiff := List.chain'_map (fun x : JobStatus => x.progress.getD 0)
        (l := runHooks ⟨.downloading, some 10, none⟩ hooks)
        (R := fun a b : Nat => a ≤ b)
      have hch : List.Chain'
          (fun a b : JobStatus => a.progress.getD 0 ≤ b.progress.getD 0)
          (runHooks ⟨.downloading, some 10, none⟩ hooks) := by
        refine hiff.mp ?_
        rw [hmap]
        exact hmono
      exact hch.imp (fun a b h => Or.inl h)
    · intro x hx y hy
      simp only [List.head?_cons, Option.mem_def, Option.some.injEq] at hy
      subst hy
      have hxm : x ∈ runHooks ⟨.downloading, some 10, none⟩ hooks := by
        rcases List.mem_getLast?_eq_getLast hx with ⟨hne, hxe⟩
        rw [hxe]
        exact List.getLast_mem hne
      rcases runHooks_shape hooks _ x hxm with ⟨⟨v, hv, _, h95⟩, _, _⟩
      rcases hfin with h100 | hfail
      · left
        rw [h100, hv]
        simp
        omega
      · right
        exact hfail
  · intro x hx y hy
    simp only [List.getLast?_cons_cons, List.getLast?_singleton,
      Option.mem_def, Option.some.injEq] at hx
    subst hx
    cases hhs : runHooks (⟨.downloading, some 10, none⟩ : JobStatus) hooks with
    | nil =>
      rw [hhs] at hy
      simp only [List.nil_append, List.head?_cons, Option.mem_def,
        Option.some.injEq] at hy
      subst hy
      rcases hfin with h100 | hfail
      · left
        rw [h100]
        simp
      · right
        exact hfail
    | cons a t =>
      rw [hhs] at hy
      simp only [List.cons_append, List.head?_cons, Option.mem_def,
        Option.some.injEq] at hy
      subst hy
      have ham : a ∈ runHooks (⟨.downloading, some 10, none⟩ : JobStatus) hooks := by
        rw [hhs]
        exact List.mem_cons_self a t
      rcases runHooks_shape hooks _ a ham with ⟨⟨v, hv, h10, _⟩, _, _⟩
      left
      rw [hv]
      simpa using h10

/-- C4 counterexample: with a failing info extraction, the successive
progress reads of one `download_task` execution are 0, 0, 5, 0 — the
transition into `failed` resets progress from 5 back to 0, so the
sequence is not monotonically non-decreasing. -/
theorem C4_counterexample :
    (download_task_trace envC4).map (fun s => s.progress.getD 0) = [0, 0, 5, 0] ∧
    ¬ List.Chain' (fun a b : Nat => a ≤ b)
      ((download_task_trace envC4).map (fun s => s.progress.getD 0)) := by
  refine ⟨rfl, ?_⟩
  intro h
  rw [show (download_task_trace envC4).map (fun s => s.progress.getD 0) =
    [0, 0, 5, 0] from rfl] at h
  rcases List.chain'_cons.mp h with ⟨_, h⟩
  rcases List.chain'_cons.mp h with ⟨_, h⟩
  rcases List.chain'_cons.mp h with ⟨h50, _⟩
  omega

/-- C4 amended: within one `download_task` execution the progress reads
are non-decreasing at every step EXCEPT a step into the `failed` record,
which resets progress to 0 — provided the fetch's own progress reports
(the hook-written values) are themselves non-decreasing. -/
theorem C4_amended (env : TaskEnv)
    (hmono : List.Chain' (fun a b : Nat => a ≤ b) (hookWrites env.hooks)) :
    List.Chain' progMono (download_task_trace env) := by
  cases hinfo : env.info with
  | error e =>
    simp only [download_task_trace, hinfo]
    exact List.chain'_cons.mpr ⟨Or.inl (by decide),
      List.chain'_cons.mpr ⟨Or.inl (by decide),
        List.chain'_cons.mpr ⟨Or.inr rfl, List.chain'_singleton _⟩⟩⟩
  | ok info =>
    simp only [download_task_trace, hinfo]
    cases houtcome : env.outcome with
    | success =>
      exact chainTraceAux env.hooks ⟨.completed, some 100, none⟩ hmono (Or.inl rfl)
    | failure =>
      exact chainTraceAux env.hooks
        ⟨.failed, some 0, some "Download failed - check logs for details"⟩
        hmono (Or.inr rfl)
    | exn m =>
      exact chainTraceAux env.hooks ⟨.failed, some 0, some m⟩ hmono (Or.inr rfl)

/-- Witness for C4 amended at `envT2`, whose hook writes 50, 95, 95 are
non-decreasing. -/
theorem C4_amended_witness :
    List.Chain' progMono (download_task_trace envT2) :=
  C4_amended envT2 (by
    rw [show hookWrites envT2.hooks = [50, 95, 95] from rfl]
    exact List.chain'_cons.mpr ⟨by omega,
      List.chain'_cons.mpr ⟨by omega, List.chain'_singleton _⟩⟩)

/-- C5: every record written by `download_task` or
`playlist_download_task` satisfies the JobStatus invariants: progress is
exactly 100 only on status `completed`, and a `failed` record always
carries a non-null error string. -/
theorem C5_terminal_invariants (envT : TaskEnv) (envP : PlaylistEnv) (s : JobStatus) :
    (s ∈ download_task_trace envT →
      (s.progress = some 100 → s.status = DStatus.completed) ∧
      (s.status = DStatus.failed → s.error ≠ none)) ∧
    (s ∈ playlist_download_task_trace envP →
      (s.progress = some 100 → s.status = DStatus.completed) ∧
      (s.status = DStatus.failed → s.error ≠ none)) := by
  constructor
  · intro hmem
    cases hinfo : envT.info with
    | error e =>
      simp only [download_task_trace, hinfo, List.mem_cons,
        List.not_mem_nil, or_false] at hmem
      rcases hmem with rfl | rfl | rfl | rfl <;> simp
    | ok info =>
      simp only [download_task_trace, hinfo] at hmem
      rw [List.append_assoc] at hmem
      rcases List.mem_append.mp hmem with h1 | h23
      · simp only [List.mem_cons, List.not_mem_nil, or_false] at h1
        rcases h1 with rfl | rfl | rfl | rfl | rfl <;> simp
      · rcases List.mem_append.mp h23 with hh | hf
        · rcases runHooks_shape envT.hooks _ s hh with ⟨⟨v, hv, _, h95⟩, hst, _⟩
          constructor
          · intro h100
            rw [hv] at h100
            injection h100 with h100
            omega
          · intro hfail
            rcases hst with h | h <;> rw [hfail] at h <;>
              exact absurd h (by decide)
        · simp only [List.mem_singleton] at hf
          subst hf
          cases houtcome : envT.outcome <;> simp
  · intro hmem
    cases hex : envP.extract with
    | exn m =>
      simp only [playlist_download_task_trace, hex, List.mem_cons,
        List.not_mem_nil, or_false] at hmem
      rcases hmem with rfl | rfl <;> simp
    | noEntries =>
      simp only [playlist_download_task_trace, hex, List.mem_cons,
        List.not_mem_nil, or_false] at hmem
      rcases hmem with rfl | rfl <;> simp
    | ok entries =>
      simp only [playlist_download_task_trace, hex] at hmem
      split at hmem
      · simp only [List.mem_cons, List.not_mem_nil, or_false] at hmem
        rcases hmem with rfl | rfl <;> simp
      · rename_i hn
        rw [List.append_assoc] at hmem
        rcases List.mem_append.mp hmem with h1 | h23
        · simp only [List.mem_cons, List.not_mem_nil, or_false] at h1
          rcases h1 with rfl | rfl <;> simp
        · rcases List.mem_append.mp h23 with hh | hf
          · rcases List.mem_map.mp hh with ⟨i, hir, heq⟩
            have hi : i < ((entries.filter
                (fun v => v.id.getD "" ≠ "")).take envP.maxVideos).length :=
              List.mem_range.mp hir
            subst heq
            constructor
            · intro h100
              injection h100 with h100
              have hn0 : 0 < ((entries.filter
                  (fun v => v.id.getD "" ≠ "")).take envP.maxVideos).length :=
                Nat.pos_of_ne_zero hn
              have hlt : i * 85 < 85 * ((entries.filter
                  (fun v => v.id.getD "" ≠ "")).take envP.maxVideos).length := by
                have h1 : i * 85 < ((entries.filter
                    (fun v => v.id.getD "" ≠ "")).take envP.maxVideos).length * 85 :=
                  (Nat.mul_lt_mul_right (by norm_num)).mpr hi
                omega
              have hdiv : i * 85 / ((entries.filter
                  (fun v => v.id.getD "" ≠ "")).take envP.maxVideos).length < 85 :=
                (Nat.div_lt_iff_lt_mul hn0).mpr hlt
              omega
            · intro hfail
              simp at hfail
          · simp only [List.mem_singleton] at hf
            subst hf
            simp

/-- Witness for C5: the failed record of the failing `download_task`
execution `envC4` is in its trace and carries a non-null error. -/
theorem C5_terminal_invariants_witness :
    (⟨DStatus.failed, some 0, some "boom"⟩ : JobStatus) ∈
      download_task_trace envC4 ∧
    (⟨DStatus.failed, some 0, some "boom"⟩ : JobStatus).error ≠ none := by
  refine ⟨by decide, ?_⟩
  exact ((C5_terminal_invariants envC4 envPW
    ⟨DStatus.failed, some 0, some "boom"⟩).1 (by decide)).2 rfl
